import Mathlib

/-!
Shallow embedding of `fire_notifier.py` (repository `fire-notifier`).

Strings are modelled as `List Char`.  Python's `str.lower`/`str.upper`/
`str.capitalize` are modelled on the ASCII range (the repository's data is
ASCII).  Python floats are modelled exactly as IEEE-754 binary64 values,
represented as dyadic rationals `(a, s)` denoting `a / 2 ^ s`, with
round-to-nearest, ties-to-even at 53 significant bits (all values arising
here are nonnegative and in the normal range).

`BeautifulSoup` extraction is the modelling boundary: a fetched page is
modelled as the list of its `cardfire` blocks, each block being the list of
the texts of its `<p>` elements, which is exactly the data
`FireNotifier.get_fire_alerts` consumes.
-/

/-- Convenience: the character list of a string literal. -/
def chars (s : String) : List Char := s.toList

/-- Python `str.strip()` whitespace set (ASCII part): space (32), tab (9),
newline (10), carriage return (13), vertical tab (11), form feed (12). -/
def isPySpace (c : Char) : Bool :=
  c.toNat = 32 || c.toNat = 9 || c.toNat = 10 || c.toNat = 13 ||
    c.toNat = 11 || c.toNat = 12

/-- Python `str.strip()`: drop leading and trailing whitespace. -/
def pyStrip (s : List Char) : List Char :=
  ((s.dropWhile isPySpace).reverse.dropWhile isPySpace).reverse

/-- `leadsWith p s` is true iff `p` is an initial segment of `s`. -/
def leadsWith : List Char → List Char → Bool
  | [], _ => true
  | _ :: _, [] => false
  | p :: ps, c :: cs => p == c && leadsWith ps cs

/-- Index of the first occurrence of `sep` in `s`, if any. -/
def findOcc (sep : List Char) : List Char → Option Nat
  | [] => if leadsWith sep [] then some 0 else none
  | c :: cs =>
    if leadsWith sep (c :: cs) then some 0 else (findOcc sep cs).map (· + 1)

/-- Worker for `splitSeq`, structurally recursive on a fuel argument (each
recursive call drops at least one character, so `s.length + 1` fuel is
always enough; the fuel makes the definition kernel-reducible). -/
def splitSeqF : Nat → List Char → List Char → List (List Char)
  | 0, _, s => [s]
  | fuel + 1, sep, s =>
    match findOcc sep s with
    | none => [s]
    | some k => s.take k :: splitSeqF fuel sep (s.drop (k + sep.length))

/-- Python `s.split(sep)` for a nonempty separator string `sep`
(splits on every non-overlapping occurrence, left to right; an input with
no occurrence gives the one-element list `[s]`, so the result is never
empty). -/
def splitSeq (sep : List Char) (s : List Char) : List (List Char) :=
  if sep = [] then [s] else splitSeqF (s.length + 1) sep s

/-- Python `s.replace(old, new)` for nonempty `old`: replace every
non-overlapping occurrence, equivalently split on `old` and join with
`new`. -/
def pyReplace (old new s : List Char) : List Char :=
  if old = [] then s else List.intercalate new (splitSeq old s)

/-- Python `str.lower` on the ASCII range. -/
def pyLowerChar (c : Char) : Char :=
  if 65 ≤ c.toNat ∧ c.toNat ≤ 90 then Char.ofNat (c.toNat + 32) else c

/-- Python `str.upper` on the ASCII range. -/
def pyUpperChar (c : Char) : Char :=
  if 97 ≤ c.toNat ∧ c.toNat ≤ 122 then Char.ofNat (c.toNat - 32) else c

def pyLower (s : List Char) : List Char := s.map pyLowerChar

def pyUpper (s : List Char) : List Char := s.map pyUpperChar

/-- Python `str.capitalize`: first character upper-cased, the rest
lower-cased (ASCII model). -/
def pyCapitalize : List Char → List Char
  | [] => []
  | c :: cs => pyUpperChar c :: cs.map pyLowerChar

/-- `FireNotifierHelper.clean_text` (fire_notifier.py line 126):
`text.strip().replace("\n", "").replace("\t", "").replace("\r", "")`. -/
def clean_text (s : List Char) : List Char :=
  pyReplace (chars "\r") []
    (pyReplace (chars "\t") [] (pyReplace (chars "\n") [] (pyStrip s)))

/-- `FireNotifierHelper.split_and_capitalize_text` (line 116):
`[term.strip().capitalize() for term in text.split(",")]`. -/
def split_and_capitalize_text (text : List Char) : List (List Char) :=
  (splitSeq (chars ",") text).map (fun t => pyCapitalize (pyStrip t))

/-- `subStr needle hay` models the Python expression `needle in hay`
(substring containment). -/
def subStr (needle : List Char) : List Char → Bool
  | [] => needle.isEmpty
  | c :: cs => leadsWith needle (c :: cs) || subStr needle cs

/-- One parsed alert, the dict built at fire_notifier.py lines 331-337.
`alert_info` is the spec's `location`, `alert_type` its `category`, and
`alert_time` its `observed_at`. -/
structure AlertRecord where
  alert_info : List Char
  alert_type : List Char
  alert_time : List Char
deriving DecidableEq

/-- Python runtime errors relevant to the embedded code: `IndexError` from
list indexing and `AttributeError` from attribute access on `None`. -/
inductive PyErr where
  | indexError
  | attributeError
deriving DecidableEq

/-- Python list indexing `l[i]` (raises `IndexError` out of range). -/
def getIdx {α : Type} (l : List α) (i : Nat) : Except PyErr α :=
  match l.get? i with
  | some x => .ok x
  | none => .error .indexError

/-- The per-block body of the `for fire_alert in fire_alerts:` loop of
`FireNotifier.get_fire_alerts` (fire_notifier.py lines 308-337).  A block is
the list of the texts of its `<p>` elements. -/
def parseBlock (ps : List (List Char)) : Except PyErr AlertRecord := do
  let p0 ← getIdx ps 0
  let info0 := pyReplace (chars "->") [] (clean_text p0)
  let parts := splitSeq (chars ":") info0
  let part0 ← getIdx parts 0
  let infoA := pyStrip part0
  let (info1, type1) ←
    if parts.length = 2 then do
      let afterBang ← getIdx (splitSeq (chars "!") part0) 1
      let t1 ← getIdx parts 1
      pure (afterBang, t1)
    else
      pure (infoA, chars "UNKNOWN")
  let p1 ← getIdx ps 1
  let time0 ← getIdx (splitSeq (chars "As of ") (clean_text p1)) 1
  let info2 := pyReplace (chars "FIRE ALERT!") [] (pyStrip info1)
  pure { alert_info := pyUpper info2
         alert_type := pyUpper (pyStrip type1)
         alert_time := pyUpper (pyStrip time0) }

/-- The whole parsing loop of `FireNotifier.get_fire_alerts` (lines
307-339): records accumulate in page order; an uncaught exception in any
block aborts the whole loop. -/
def parseBlocks : List (List (List Char)) → Except PyErr (List AlertRecord)
  | [] => .ok []
  | b :: bs => do
    let r ← parseBlock b
    let rs ← parseBlocks bs
    pure (r :: rs)

/-- Outcome of the HTTP GET in `FireNotifier.get_fire_alerts`:
either `requests.get` raised (`exn`), or it returned a response with the
given `ok` status whose body parses (via BeautifulSoup) into the given
blocks. -/
inductive FetchResult where
  | exn
  | resp (ok : Bool) (blocks : List (List (List Char)))

/-- `FireNotifier.get_fire_alerts` (lines 289-339): a fetch exception or a
non-ok status is caught/logged and yields `[]`; otherwise the body's blocks
are parsed (exceptions in the parse loop are NOT caught). -/
def get_fire_alerts : FetchResult → Except PyErr (List AlertRecord)
  | .exn => .ok []
  | .resp ok blocks => if ok then parseBlocks blocks else .ok []

/-- `FireNotifier.WARN_ALARMS` (fire_notifier.py lines 161-179), verbatim
(including the source's `MATRESS FIRE` and `POSSITIVE ALARM` spellings). -/
def WARN_ALARMS : List (List Char) :=
  [chars "1ST ALARM", chars "2ND ALARM", chars "3RD ALARM",
   chars "4TH ALARM", chars "5TH ALARM", chars "POSSITIVE ALARM",
   chars "GAS STOVE FIRE", chars "ELECTRICAL FIRE", chars "VEHICULAR FIRE",
   chars "RUBBISH FIRE", chars "CEILING FIRE", chars "VISIBLE SMOKE",
   chars "POSITIVE ALARM", chars "POST FIRE", chars "KITCHEN FIRE",
   chars "MATRESS FIRE", chars "FOR VERIFICATION"]

/-- The danger classifier: the membership test
`alert_type not in self.WARN_ALARMS` at fire_notifier.py line 264 (the
spec's `is_dangerous`). -/
def is_dangerous (category : List Char) : Bool :=
  WARN_ALARMS.contains category

/-- `FireNotifier.is_match_found_in_alert_info` (lines 341-348): true iff
some comma-separated search term (stripped, capitalized, then lower-cased)
is a substring of `alert_info.strip().lower()`. -/
def is_match_found_in_alert_info (search_term alert_info : List Char) : Bool :=
  (split_and_capitalize_text search_term).any
    (fun term => subStr (pyLower term) (pyLower (pyStrip alert_info)))

/-- `FireNotifier.check_fire_alert_in_db` (lines 350-358) over the decoded
contents of the JSON db file: some stored alert has the same
`alert_time`. -/
def check_fire_alert_in_db (db : List AlertRecord) (r : AlertRecord) : Bool :=
  db.any (fun a => a.alert_time == r.alert_time)

/-- `FireNotifier.add_fire_alert_to_db` (lines 360-367): read the whole db,
append, write the whole db back. -/
def add_fire_alert_to_db (db : List AlertRecord) (r : AlertRecord) :
    List AlertRecord :=
  db ++ [r]

/-- A `requests.Response` as the poll loop consumes it: its truthiness is
`ok` (`requests.Response.__bool__` returns `self.ok`) and it carries a
`text` body. -/
structure Response where
  ok : Bool
  text : List Char
deriving DecidableEq

/-- One iteration of the `while True:` body of `FireNotifier.start`
(fire_notifier.py lines 229-287), parameterized by the alerts returned by
`get_fire_alerts` and by the result of `self.notifier.send_message`:
`some resp` is a returned `requests.Response`; `none` is the case where the
POST raised and `PushoverNotifier.send_message`'s `except` branch returned
`None`.  Returns the db contents after the iteration, or the uncaught
Python error that terminates the loop. -/
def startCycle (alerts : List AlertRecord) (send : Option Response)
    (search_term : List Char) (db : List AlertRecord) :
    Except PyErr (List AlertRecord) :=
  match alerts with
  | [] => .ok db
  | recent :: _ =>
    if is_match_found_in_alert_info search_term recent.alert_info = false then
      .ok db
    else if is_dangerous recent.alert_type = false then
      .ok db
    else if check_fire_alert_in_db db recent = true then
      .ok db
    else
      match send with
      | none => .error .attributeError
      | some resp =>
        if resp.ok then .ok (add_fire_alert_to_db db recent) else .ok db

/-- A full poll cycle: fetch-and-parse, then the evaluate/notify/persist
path of `FireNotifier.start`. -/
def runCycle (fetch : FetchResult) (send : Option Response)
    (search_term : List Char) (db : List AlertRecord) :
    Except PyErr (List AlertRecord) := do
  let alerts ← get_fire_alerts fetch
  startCycle alerts send search_term db

/-- The JSON value stored for one alert: the dict's key/value pairs in the
order `json.dump` writes them. -/
def encodeRecord (r : AlertRecord) : List (String × List Char) :=
  [("alert_info", r.alert_info), ("alert_type", r.alert_type),
   ("alert_time", r.alert_time)]

/-- Reading one alert dict back from the JSON db file. -/
def decodeRecord (l : List (String × List Char)) : Option AlertRecord := do
  let info ← l.lookup "alert_info"
  let ty ← l.lookup "alert_type"
  let time ← l.lookup "alert_time"
  pure ⟨info, ty, time⟩

/-- Serialization of the whole db as written by `add_fire_alert_to_db`. -/
def saveDb (db : List AlertRecord) : List (List (String × List Char)) :=
  db.map encodeRecord

/-- Deserialization of the db file on (re)load, e.g. after a process
restart. -/
def loadDb (file : List (List (String × List Char))) :
    Option (List AlertRecord) :=
  file.mapM decodeRecord

/-!
Exact model of the Python float arithmetic in `PushoverNotifier.mask_secret`
(fire_notifier.py lines 101-111).  A nonnegative dyadic rational is a pair
`(a, s) : Nat × Nat` denoting `a / 2 ^ s`.  `dround` is IEEE-754 binary64
rounding (round to nearest, ties to even, 53 significant bits) for values in
the normal range, which covers every value arising in `mask_secret`.
-/

/-- Nonnegative dyadic rational `(a, s)`, denoting `a / 2 ^ s`. -/
def Dyadic : Type := Nat × Nat

/-- Exact product of two dyadic rationals. -/
def dmul (x y : Dyadic) : Dyadic := (x.1 * y.1, x.2 + y.2)

/-- Fuel-based worker for `nlog2` (structural recursion, so the kernel can
reduce it). -/
def nlog2F : Nat → Nat → Nat
  | 0, _ => 0
  | fuel + 1, n => if n ≤ 1 then 0 else nlog2F fuel (n / 2) + 1

/-- Floor of the base-2 logarithm of a positive natural number
(`n` itself is always enough fuel). -/
def nlog2 (n : Nat) : Nat := nlog2F n n

/-- Round a nonnegative dyadic rational to the nearest IEEE-754 binary64
value (ties to even).  If the numerator `a` has at most 53 significant bits
the value is exact; otherwise the significand is rounded at bit 53. -/
def dround (x : Dyadic) : Dyadic :=
  let a := x.1
  let s := x.2
  if a = 0 then (0, 0)
  else
    let m := nlog2 a
    if m ≤ 52 then (a, s)
    else
      let d := m - 52
      let q := a / 2 ^ d
      let r := a % 2 ^ d
      let half := 2 ^ (d - 1)
      let n :=
        if r < half then q
        else if half < r then q + 1
        else if q % 2 = 0 then q else q + 1
      (n * 2 ^ d, s)

/-- The Python float `0.7`: `(0.7).as_integer_ratio() ==
(3152519739159347, 2**52)`. -/
def f07 : Dyadic := (3152519739159347, 52)

/-- The Python float `0.2`: `(0.2).as_integer_ratio() ==
(3602879701896397, 2**54)`. -/
def f02 : Dyadic := (3602879701896397, 54)

/-- The Python float `0.1`: `(0.1).as_integer_ratio() ==
(3602879701896397, 2**55)`. -/
def f01 : Dyadic := (3602879701896397, 55)

/-- Conversion of a Python int to float (rounds when above 2^53). -/
def floatOfNat (n : Nat) : Dyadic := dround (n, 0)

/-- Python float multiplication: exact product, then binary64 rounding. -/
def fmul (x y : Dyadic) : Dyadic := dround (dmul x y)

/-- Python `int()` on a nonnegative float: truncation toward zero. -/
def pyInt (x : Dyadic) : Nat := x.1 / 2 ^ x.2

/-- Python `math.ceil` on a nonnegative float. -/
def pyCeilN (x : Dyadic) : Nat := (x.1 + 2 ^ x.2 - 1) / 2 ^ x.2

/-- The three lengths `mask_len`, `start_mask_len`, `end_mask_len` computed
by `PushoverNotifier.mask_secret` from the secret's length:
`mask_len = int(secret_len * 0.7)`, `start_mask_len = ceil(mask_len * 0.2)`,
`end_mask_len = ceil(mask_len * 0.1)`, in Python float arithmetic. -/
def maskCounts (secret_len : Nat) : Nat × Nat × Nat :=
  let mask_len := pyInt (fmul (floatOfNat secret_len) f07)
  let start_mask_len := pyCeilN (fmul (floatOfNat mask_len) f02)
  let end_mask_len := pyCeilN (fmul (floatOfNat mask_len) f01)
  (mask_len, start_mask_len, end_mask_len)

/-- `PushoverNotifier.mask_secret` (fire_notifier.py lines 101-111):
`secret[:start_mask_len] + "*" * mask_len + secret[-end_mask_len:]`.
Note `secret[-0:]` is the whole string in Python, hence the `if` in the
last slice; `secret[-e:]` for `e ≥ len` is also the whole string, which
`List.drop (len - e)` with truncated subtraction models exactly. -/
def mask_secret (secret : List Char) : List Char :=
  let c := maskCounts secret.length
  let first_part_secret := secret.take c.2.1
  let last_part_secret :=
    if c.2.2 = 0 then secret else secret.drop (secret.length - c.2.2)
  first_part_secret ++ List.replicate c.1 '*' ++ last_part_secret

/-!
Claim-side definitions and concrete fixtures used by the theorems below.
-/

/-- `occursIn needle hay`: `needle` occurs contiguously inside `hay`
(Python's `needle in hay` as a proposition). -/
def occursIn (needle hay : List Char) : Prop :=
  ∃ a b, hay = a ++ needle ++ b

/-- Modelled from the spec's words (section 4.3): a record matches the
configured interest when some comma-separated configured term (modulo
surrounding whitespace) occurs case-insensitively within the record's
location.  This is the claim-side definition that `c5` compares against the
source's `is_match_found_in_alert_info`. -/
def matches_interest_spec (configured_terms location : List Char) : Prop :=
  ∃ t ∈ splitSeq (chars ",") configured_terms,
    occursIn (pyLower (pyStrip t)) (pyLower location)

/-- The dedupe-store invariant of spec section 3: no two stored records
share the same `observed_at` (`alert_time`) value. -/
def DbInv (db : List AlertRecord) : Prop :=
  db.Pairwise (fun a b => a.alert_time ≠ b.alert_time)

/-- The colon-split of a block's first text line, as
`FireNotifier.get_fire_alerts` computes it (lines 309-313). -/
def firstLineParts (p0 : List Char) : List (List Char) :=
  splitSeq (chars ":") (pyReplace (chars "->") [] (clean_text p0))

/-- A block is well-formed when every list index taken by
`FireNotifier.get_fire_alerts` is in range: it has at least two text
elements, the second contains the `"As of "` marker, and if the first
line's colon-split has exactly two parts then the part before the colon
contains a `"!"`. -/
def wfBlock : List (List Char) → Bool
  | p0 :: p1 :: _ =>
    decide (2 ≤ (splitSeq (chars "As of ") (clean_text p1)).length) &&
      (decide ((firstLineParts p0).length ≠ 2) ||
        decide (2 ≤ (splitSeq (chars "!") (firstLineParts p0).headI).length))
  | _ => false

/-- A well-formed block as served by the real page. -/
def goodBlock : List (List Char) :=
  [chars "FIRE ALERT! MAKATI CITY : 1ST ALARM", chars "As of 9:00 AM"]

/-- A malformed block: the second text element (the timestamp `<p>`) is
missing. -/
def badBlockOneP : List (List Char) :=
  [chars "FIRE ALERT! PASIG CITY : 1ST ALARM"]

/-- A malformed block: the second text element lacks the `"As of "`
marker. -/
def badBlockNoMarker : List (List Char) :=
  [chars "FIRE ALERT! PASIG CITY : 1ST ALARM", chars "Posted 9:00 AM"]

/-- A block whose first line contains two colons (and a `"!"`). -/
def twoColonBlock : List (List Char) :=
  [chars "FIRE ALERT! X : 1ST ALARM : EXTRA", chars "As of T"]

/-- A well-formed block whose alert passes the interest, danger and dedupe
checks of the poll loop when the db is empty and no search term is set. -/
def dangerBlocks : List (List (List Char)) :=
  [[chars "FIRE ALERT! QUEZON CITY : 2ND ALARM", chars "As of 10:00 AM"]]

/-- The record `dangerBlocks` parses to. -/
def rQuezon : AlertRecord :=
  ⟨chars "QUEZON CITY", chars "2ND ALARM", chars "10:00 AM"⟩

/-- A structurally different record with the same `alert_time` as
`rQuezon`. -/
def rMakati : AlertRecord :=
  ⟨chars "MAKATI CITY", chars "1ST ALARM", chars "10:00 AM"⟩

/-- A 180-character secret: 25 `a`s, one `b`, 154 `c`s. -/
def secret180 : List Char :=
  List.replicate 25 'a' ++ 'b' :: List.replicate 154 'c'

/-!
Supporting lemmas.
-/

theorem subStr_nil (hay : List Char) : subStr [] hay = true := by
  cases hay <;> rfl

theorem splitSeqF_ne_nil (fuel : Nat) (sep s : List Char) :
    splitSeqF fuel sep s ≠ [] := by
  cases fuel with
  | zero => simp [splitSeqF]
  | succ n =>
    simp only [splitSeqF]
    cases findOcc sep s <;> simp

theorem splitSeq_ne_nil (sep s : List Char) : splitSeq sep s ≠ [] := by
  unfold splitSeq
  split
  · simp
  · exact splitSeqF_ne_nil _ _ _

theorem getIdx_eq_ok {α : Type} {l : List α} {i : Nat} (h : i < l.length) :
    getIdx l i = .ok (l.get ⟨i, h⟩) := by
  unfold getIdx
  rw [List.get?_eq_get h]

theorem getIdx_eq_error {α : Type} {l : List α} {i : Nat}
    (h : l.length ≤ i) : getIdx l i = .error .indexError := by
  unfold getIdx
  rw [List.get?_eq_none.mpr h]

/-!
C1.  fire_notifier.py lines 94-99 catch an exception raised by the POST
and return `None`; line 287 then evaluates `response.text` in the failure
branch, which is an uncaught `AttributeError` when `response` is `None`,
terminating `FireNotifier.start`.  (A fetch failure, by contrast, really is
caught and skipped: lines 290-296.)
-/

/-- C1: a cycle in which the candidate alert passes all checks and the
notification POST raises (so `send_message` returns `None`) does NOT skip
the cycle: the loop body evaluates `response.text` on `None` and dies with
an uncaught `AttributeError`.  A fetch exception, on the other hand, is
caught and yields a skipped cycle, as the claim says. -/
theorem c1_send_exception_kills_loop :
    runCycle (.resp true dangerBlocks) none [] [] = .error .attributeError ∧
    runCycle .exn none [] [] = .ok [] := by
  constructor <;> rfl

/-!
C3.  The dedupe store: `add_fire_alert_to_db` appends the record to the
JSON file's list; `check_fire_alert_in_db` matches on `alert_time`; the
JSON round-trip (`saveDb`/`loadDb`) preserves the list, so containment
survives a simulated process restart.
-/

theorem loadDb_saveDb (db : List AlertRecord) : loadDb (saveDb db) = some db := by
  induction db with
  | nil => rfl
  | cons a t ih =>
    simp only [saveDb, List.map_cons, loadDb, List.mapM_cons] at *
    rw [show decodeRecord (encodeRecord a) = some a from rfl, ih]
    rfl

/-- C3: after `append(R)` on the dedupe store, `contains(R)` is true, and
it remains true after the store is written out and reloaded from its
backing file (simulated process restart). -/
theorem c3_append_contains_persists (db : List AlertRecord) (r : AlertRecord) :
    check_fire_alert_in_db (add_fire_alert_to_db db r) r = true ∧
    ∃ db2, loadDb (saveDb (add_fire_alert_to_db db r)) = some db2 ∧
      check_fire_alert_in_db db2 r = true := by
  have hc : check_fire_alert_in_db (add_fire_alert_to_db db r) r = true := by
    simp [check_fire_alert_in_db, add_fire_alert_to_db, List.any_append]
  exact ⟨hc, add_fire_alert_to_db db r, loadDb_saveDb _, hc⟩

/-!
C4.  The danger classifier is the membership test against
`FireNotifier.WARN_ALARMS` (line 264): total and deterministic, true
exactly on the seventeen listed categories.  Note the source's spellings
`MATRESS FIRE` and `POSSITIVE ALARM`; the differently spelled
`MATTRESS FIRE` is not in the table and is therefore not dangerous.
-/

/-- C4: `is_dangerous` is true for every category in the canonical danger
list and false for every category not in it; in particular it is true for
all five alarm levels, both `POSSITIVE ALARM` and `POSITIVE ALARM`, the
specific fire types (with the source's `MATRESS FIRE` spelling),
`VISIBLE SMOKE`, `POST FIRE` and `FOR VERIFICATION`, and false for
`FALSE ALARM`, `FIRE OUT`, `FIRE UNDER CONTROL`, `NEGATIVE ALARM` and
`UNKNOWN`. -/
theorem c4_danger_classifier :
    (∀ c, c ∈ WARN_ALARMS → is_dangerous c = true) ∧
    (∀ c, c ∉ WARN_ALARMS → is_dangerous c = false) ∧
    (is_dangerous (chars "1ST ALARM") = true ∧
      is_dangerous (chars "2ND ALARM") = true ∧
      is_dangerous (chars "3RD ALARM") = true ∧
      is_dangerous (chars "4TH ALARM") = true ∧
      is_dangerous (chars "5TH ALARM") = true ∧
      is_dangerous (chars "POSSITIVE ALARM") = true ∧
      is_dangerous (chars "POSITIVE ALARM") = true ∧
      is_dangerous (chars "GAS STOVE FIRE") = true ∧
      is_dangerous (chars "ELECTRICAL FIRE") = true ∧
      is_dangerous (chars "VEHICULAR FIRE") = true ∧
      is_dangerous (chars "RUBBISH FIRE") = true ∧
      is_dangerous (chars "CEILING FIRE") = true ∧
      is_dangerous (chars "KITCHEN FIRE") = true ∧
      is_dangerous (chars "MATRESS FIRE") = true ∧
      is_dangerous (chars "VISIBLE SMOKE") = true ∧
      is_dangerous (chars "POST FIRE") = true ∧
      is_dangerous (chars "FOR VERIFICATION") = true) ∧
    (is_dangerous (chars "FALSE ALARM") = false ∧
      is_dangerous (chars "FIRE OUT") = false ∧
      is_dangerous (chars "FIRE UNDER CONTROL") = false ∧
      is_dangerous (chars "NEGATIVE ALARM") = false ∧
      is_dangerous (chars "UNKNOWN") = false ∧
      is_dangerous (chars "MATTRESS FIRE") = false) := by
  refine ⟨?_, ?_, by decide, by decide⟩
  · intro c hc
    have h : WARN_ALARMS.elem c = true := List.elem_iff.mpr hc
    exact h
  · intro c hc
    cases hd : is_dangerous c with
    | false => rfl
    | true => exact absurd (List.elem_iff.mp hd) hc

/-- Witness for C4 at concrete categories. -/
theorem c4_witness :
    is_dangerous (chars "2ND ALARM") = true ∧
    is_dangerous (chars "FIRE OUT") = false :=
  ⟨c4_danger_classifier.1 _ (by decide), c4_danger_classifier.2.1 _ (by decide)⟩

/-!
C10.  `split_and_capitalize_text` maps an empty comma-piece (e.g. from a
trailing comma) to the empty string, and the empty string is a substring of
everything, so `is_match_found_in_alert_info` returns true for every
location.
-/

/-- C10: if the configured comma-separated search-term string contains a
term that is empty after splitting and stripping, interest matching
returns true for every location — the filter silently matches
everything. -/
theorem c10_empty_term_matches_all (ts info : List Char)
    (h : ∃ t ∈ splitSeq (chars ",") ts, pyStrip t = []) :
    is_match_found_in_alert_info ts info = true := by
  obtain ⟨t, ht, hstrip⟩ := h
  unfold is_match_found_in_alert_info split_and_capitalize_text
  rw [List.any_eq_true]
  refine ⟨pyCapitalize (pyStrip t), List.mem_map_of_mem _ ht, ?_⟩
  rw [hstrip]
  exact subStr_nil _

/-- Witness for C10 with the trailing-comma term string `"Makati,"`. -/
theorem c10_witness :
    is_match_found_in_alert_info (chars "Makati,") (chars "QUEZON CITY") =
      true :=
  c10_empty_term_matches_all (chars "Makati,") (chars "QUEZON CITY")
    ⟨[], by decide, rfl⟩

/-!
C6.  In `FireNotifier.start`, the candidate is appended to the db (line
285) only inside the `if response and response.ok:` branch; a non-ok
acknowledgement takes the `else` branch (line 287), which logs and leaves
the db untouched.
-/

/-- C6: in a cycle whose candidate passes the interest, danger and dedupe
checks and where the notifier returns an acknowledgement, the candidate is
appended to the dedupe store exactly when the acknowledgement is ok; a
non-ok acknowledgement leaves the store unchanged. -/
theorem c6_persist_iff_ack_ok (r : AlertRecord) (rest db : List AlertRecord)
    (resp : Response) (term : List Char)
    (h1 : is_match_found_in_alert_info term r.alert_info = true)
    (h2 : is_dangerous r.alert_type = true)
    (h3 : check_fire_alert_in_db db r = false) :
    startCycle (r :: rest) (some resp) term db =
      .ok (if resp.ok then add_fire_alert_to_db db r else db) ∧
    (startCycle (r :: rest) (some resp) term db =
        .ok (add_fire_alert_to_db db r) ↔ resp.ok = true) := by
  have hmain : startCycle (r :: rest) (some resp) term db =
      .ok (if resp.ok then add_fire_alert_to_db db r else db) := by
    cases hok : resp.ok <;> simp [startCycle, h1, h2, h3, hok]
  refine ⟨hmain, ?_, ?_⟩
  · intro hstep
    cases hok : resp.ok with
    | true => rfl
    | false =>
      rw [hok] at hmain
      simp only [Bool.false_eq_true, if_false] at hmain
      rw [hmain] at hstep
      have hdb : db = add_fire_alert_to_db db r := by
        simpa using hstep
      have : db.length = db.length + 1 := by
        conv_lhs => rw [hdb]
        simp [add_fire_alert_to_db]
      omega
  · intro hok
    rw [hmain, hok]
    simp

/-- Witness for C6: a failing acknowledgement (`ok = false`) leaves the
empty store empty. -/
theorem c6_witness :
    startCycle [rQuezon] (some ⟨false, chars "400"⟩) [] [] =
      .ok (if (false : Bool) then add_fire_alert_to_db [] rQuezon else []) :=
  (c6_persist_iff_ack_ok rQuezon [] [] ⟨false, chars "400"⟩ []
    (by decide) (by decide) (by decide)).1

/-!
C8.  The dedupe check (lines 268-273) runs before the append (line 285)
and keys on `alert_time` alone, so a store whose timestamps are pairwise
distinct stays that way, and a candidate sharing a timestamp with any
stored record is never appended, whatever its other fields.
-/

theorem check_eq_true_of_dup {db : List AlertRecord} {r : AlertRecord}
    (h : ∃ a ∈ db, a.alert_time = r.alert_time) :
    check_fire_alert_in_db db r = true := by
  obtain ⟨a, ha, he⟩ := h
  unfold check_fire_alert_in_db
  exact List.any_eq_true.mpr ⟨a, ha, beq_iff_eq.mpr he⟩

/-- C8: one poll cycle preserves the invariant that no two stored records
share an `alert_time`; and a candidate alert whose `alert_time` already
occurs in the store — even a structurally different one — is never
appended (the cycle leaves the store unchanged). -/
theorem c8_dedupe_invariant :
    (∀ alerts send term db db', DbInv db →
      startCycle alerts send term db = .ok db' → DbInv db') ∧
    (∀ (r : AlertRecord) rest send term db,
      (∃ a ∈ db, a.alert_time = r.alert_time) →
      startCycle (r :: rest) send term db = .ok db) := by
  constructor
  · intro alerts send term db db' hInv hstep
    cases alerts with
    | nil =>
      have hdb : db' = db := by simpa [startCycle] using hstep.symm
      subst hdb
      exact hInv
    | cons r rest =>
      simp only [startCycle] at hstep
      by_cases hm : is_match_found_in_alert_info term r.alert_info = false
      · rw [if_pos hm] at hstep
        have hdb : db' = db := by simpa using hstep.symm
        subst hdb
        exact hInv
      · rw [if_neg hm] at hstep
        by_cases hd : is_dangerous r.alert_type = false
        · rw [if_pos hd] at hstep
          have hdb : db' = db := by simpa using hstep.symm
          subst hdb
          exact hInv
        · rw [if_neg hd] at hstep
          by_cases hc : check_fire_alert_in_db db r = true
          · rw [if_pos hc] at hstep
            have hdb : db' = db := by simpa using hstep.symm
            subst hdb
            exact hInv
          · rw [if_neg hc] at hstep
            cases send with
            | none => simp at hstep
            | some resp =>
              replace hstep : (if resp.ok = true then
                  (Except.ok (add_fire_alert_to_db db r) :
                    Except PyErr (List AlertRecord))
                else .ok db) = .ok db' := hstep
              by_cases hok : resp.ok = true
              · rw [if_pos hok] at hstep
                have hdb : db' = add_fire_alert_to_db db r := by
                  simpa using hstep.symm
                subst hdb
                have hfalse : check_fire_alert_in_db db r = false := by
                  cases hcf : check_fire_alert_in_db db r with
                  | false => rfl
                  | true => exact absurd hcf hc
                have hall := List.any_eq_false.mp hfalse
                unfold DbInv add_fire_alert_to_db
                rw [List.pairwise_append]
                refine ⟨hInv, List.pairwise_singleton _ _, ?_⟩
                intro a ha b hb
                have hbr : b = r := by simpa using hb
                subst hbr
                have := hall a ha
                simpa [beq_eq_false_iff_ne] using this
              · rw [if_neg hok] at hstep
                have hdb : db' = db := by simpa using hstep.symm
                subst hdb
                exact hInv
  · intro r rest send term db hdup
    have hcheck := check_eq_true_of_dup hdup
    cases hX : is_match_found_in_alert_info term r.alert_info <;>
      cases hY : is_dangerous r.alert_type <;>
        simp [startCycle, hX, hY, hcheck]

/-- Witness for C8: with `rQuezon` stored, the structurally different
`rMakati` (same `alert_time`) is not appended, and the resulting store
still satisfies the invariant. -/
theorem c8_witness : DbInv [rQuezon] :=
  c8_dedupe_invariant.1 [rMakati] (some ⟨true, []⟩) [] [rQuezon] [rQuezon]
    (by simp [DbInv])
    (c8_dedupe_invariant.2 rMakati [] (some ⟨true, []⟩) [] [rQuezon]
      ⟨rQuezon, by simp, by decide⟩)

/-!
C9.  `mask_secret` computes `mask_len = int(secret_len * 0.7)` in Python
float arithmetic.  `180 * 0.7 == 125.99999999999999` in binary64, so
`int(180 * 0.7) = 125`, not `floor(0.7 * 180) = 126`; the first slice is
then `ceil(125 * 0.2) = 25` characters, not `ceil(0.2 * 126) = 26` as the
claim's formula `m = floor(0.7 * len)` predicts.  The length-1, length-2
and degenerate-last-slice parts of the claim are correct.
-/

set_option maxRecDepth 100000 in
/-- C9 counterexample: at a secret of length 180 the claim's exact-rational
formula demands a 26-character exposed prefix (`floor(0.7*180) = 126`,
`ceil(0.2*126) = 26`), but the code's float truncation gives
`mask_len = 125` and a 25-character prefix: character 26 of the output is
the mask character, not the secret's character `b`. -/
theorem c9_counterexample :
    (⌊(7 : ℚ) / 10 * 180⌋ = 126 ∧ ⌈(2 : ℚ) / 10 * 126⌉ = 26) ∧
    (mask_secret secret180).take 26 ≠ secret180.take 26 ∧
    (mask_secret secret180).get? 25 = some '*' ∧
    secret180.get? 25 = some 'b' := by
  refine ⟨⟨by norm_num, ?_⟩, ?_, ?_, ?_⟩
  · rw [Int.ceil_eq_iff]
    norm_num
  · decide
  · decide
  · decide

/-- C9 amended: for secrets of length 1 the whole secret is returned
unchanged; for length 2 the output is first char, mask, last char (both
characters appear); whenever the computed final-slice count is 0 the final
slice degenerates to the whole secret; and the exposure counts derive from
`mask_len = int(len * 0.7)` computed in binary64 float arithmetic, which at
length 180 is `(125, 25, 13)` — one less than `floor(0.7 * 180) = 126`
would give. -/
theorem c9_amended_mask_exposure :
    (∀ c : Char, mask_secret [c] = [c]) ∧
    (∀ c d : Char, mask_secret [c, d] = [c, '*', d]) ∧
    (∀ s : List Char, (maskCounts s.length).2.2 = 0 →
      ∃ p, mask_secret s = p ++ s) ∧
    maskCounts 180 = (125, 25, 13) := by
  refine ⟨?_, ?_, ?_, by decide⟩
  · intro c
    have hl : [c].length = 1 := rfl
    have h1 : maskCounts 1 = (0, 0, 0) := rfl
    simp only [mask_secret, hl, h1]
    rfl
  · intro c d
    have hl : [c, d].length = 2 := rfl
    have h2 : maskCounts 2 = (1, 1, 1) := rfl
    simp only [mask_secret, hl, h2]
    rfl
  · intro s h
    refine ⟨s.take (maskCounts s.length).2.1 ++
      List.replicate (maskCounts s.length).1 '*', ?_⟩
    simp only [mask_secret, h, if_pos, List.append_assoc]

/-- Witness for C9: a length-1 secret is fully revealed (its end slice
count is 0 and the whole secret is a suffix of the output). -/
theorem c9_witness : ∃ p, mask_secret (chars "x") = p ++ chars "x" :=
  c9_amended_mask_exposure.2.2.1 (chars "x") (by decide)

/-!
C2.  The `for` loop of `get_fire_alerts` (lines 308-337) has no per-block
error handling: `find_all("p")[1]` on a one-element list, or
`split("As of ")[1]` when the marker is absent, raises an uncaught
`IndexError` that aborts the whole parse — malformed blocks are not
skipped and the remaining blocks are not parsed.
-/

theorem getIdx_zero {α : Type} (a : α) (l : List α) :
    getIdx (a :: l) 0 = .ok a := rfl

theorem getIdx_one {α : Type} (a b : α) (l : List α) :
    getIdx (a :: b :: l) 1 = .ok b := rfl

/-- C2 counterexample: a block missing its second text element, or one
whose second text element lacks the `"As of "` marker, raises an
`IndexError` that aborts the whole parse, even though a sibling block is
well-formed; the well-formed block alone parses fine. -/
theorem c2_counterexample :
    parseBlocks [goodBlock, badBlockOneP] = .error .indexError ∧
    parseBlocks [goodBlock, badBlockNoMarker] = .error .indexError ∧
    (∃ r, parseBlock goodBlock = .ok r) := by
  exact ⟨rfl, rfl, ⟨_, rfl⟩⟩

theorem ok_bind {α β : Type} (x : α) (f : α → Except PyErr β) :
    (Except.ok x : Except PyErr α) >>= f = f x := rfl

theorem pure_ok {α : Type} (x : α) :
    (pure x : Except PyErr α) = .ok x := rfl

theorem getIdx_some {α : Type} {l : List α} {i : Nat} {x : α}
    (h : l.get? i = some x) : getIdx l i = .ok x := by
  unfold getIdx
  rw [h]

theorem parseBlock_wf {b : List (List Char)} (hb : wfBlock b = true) :
    ∃ r, parseBlock b = .ok r := by
  cases b with
  | nil => simp [wfBlock] at hb
  | cons p0 t =>
    cases t with
    | nil => simp [wfBlock] at hb
    | cons p1 rest =>
      simp only [wfBlock, firstLineParts, Bool.and_eq_true, Bool.or_eq_true,
        decide_eq_true_eq] at hb
      obtain ⟨htime, hcolon⟩ := hb
      obtain ⟨tv, htv⟩ : ∃ v,
          (splitSeq (chars "As of ") (clean_text p1)).get? 1 = some v :=
        ⟨_, List.get?_eq_get (by omega)⟩
      obtain ⟨a, l, hparts⟩ := List.exists_cons_of_ne_nil
        (splitSeq_ne_nil (chars ":") (pyReplace (chars "->") [] (clean_text p0)))
      rw [hparts] at hcolon
      have htvIdx : getIdx (splitSeq (chars "As of ") (clean_text p1)) 1 =
          .ok tv := getIdx_some htv
      simp only [parseBlock, getIdx_zero, ok_bind, hparts, htvIdx]
      by_cases hlen : (a :: l).length = 2
      case pos =>
        cases l with
        | nil => simp at hlen
        | cons b2 l2 =>
          cases l2 with
          | cons c2 l3 => simp at hlen
          | nil =>
            rw [if_pos hlen]
            have hbang : 2 ≤ (splitSeq (chars "!") a).length := by
              rcases hcolon with h | h
              case inl => exact absurd hlen h
              case inr => simpa using h
            obtain ⟨bv, hbv⟩ : ∃ v,
                (splitSeq (chars "!") a).get? 1 = some v :=
              ⟨_, List.get?_eq_get (by omega)⟩
            have hbvIdx : getIdx (splitSeq (chars "!") a) 1 = .ok bv :=
              getIdx_some hbv
            have h2nd : getIdx [a, b2] 1 = .ok b2 := rfl
            have hp1 : getIdx (p0 :: p1 :: rest) 1 = .ok p1 := rfl
            simp only [hbvIdx, h2nd, ok_bind, pure_ok, hp1, htvIdx]
            exact ⟨_, rfl⟩
      case neg =>
        rw [if_neg hlen]
        have hp1 : getIdx (p0 :: p1 :: rest) 1 = .ok p1 := rfl
        simp only [ok_bind, pure_ok, hp1, htvIdx]
        exact ⟨_, rfl⟩

/-- C2 amended: parsing indeed yields an ordered sequence of records — one
per block, in page order — provided every block is well-formed (two text
elements, a timestamp marker, and a `"!"` in exactly-one-colon first
lines); the empty block list yields the empty sequence; but a malformed
individual block raises an uncaught IndexError that aborts the whole parse
instead of being skipped (only the missing-category case is defaulted, to
the UNKNOWN sentinel). -/
theorem c2_parse_wf_blocks (bs : List (List (List Char)))
    (h : ∀ b ∈ bs, wfBlock b = true) :
    ∃ rs, parseBlocks bs = .ok rs ∧ rs.length = bs.length := by
  induction bs with
  | nil => exact ⟨[], rfl, rfl⟩
  | cons b t ih =>
    obtain ⟨r, hr⟩ := parseBlock_wf (h b (List.mem_cons_self b t))
    obtain ⟨rs, hrs, hlen⟩ := ih (fun x hx => h x (List.mem_cons_of_mem _ hx))
    refine ⟨r :: rs, ?_, by simp [hlen]⟩
    simp only [parseBlocks, hr, hrs, ok_bind, pure_ok]

/-- Witness for C2 on a concrete well-formed page. -/
theorem c2_witness :
    ∃ rs, parseBlocks [goodBlock] = .ok rs ∧ rs.length = [goodBlock].length :=
  c2_parse_wf_blocks [goodBlock] (by decide)

/-!
C5.  Character-level and whitespace lemmas for the interest-matching
equivalence.
-/

theorem char_toNat_ofNat {m : Nat} (h : m < 55296) :
    (Char.ofNat m).toNat = m := by
  have hv : m.isValidChar := Or.inl h
  simp only [Char.ofNat, dif_pos hv, Char.ofNatAux, Char.toNat, UInt32.toNat]
  simp [BitVec.toNat_ofNatLt]

theorem char_eq_of_toNat {a b : Char} (h : a.toNat = b.toNat) : a = b := by
  apply Char.ext
  apply UInt32.ext
  simpa [Char.toNat, UInt32.toNat] using h

theorem char_ofNat_toNat {c : Char} (h : c.toNat < 55296) :
    Char.ofNat c.toNat = c :=
  char_eq_of_toNat (char_toNat_ofNat h)

theorem pyLowerChar_pyUpperChar (c : Char) :
    pyLowerChar (pyUpperChar c) = pyLowerChar c := by
  unfold pyUpperChar
  by_cases h1 : 97 ≤ c.toNat ∧ c.toNat ≤ 122
  · rw [if_pos h1]
    have ht : (Char.ofNat (c.toNat - 32)).toNat = c.toNat - 32 :=
      char_toNat_ofNat (by omega)
    unfold pyLowerChar
    rw [if_pos (by rw [ht]; omega), if_neg (by omega), ht,
      show c.toNat - 32 + 32 = c.toNat by omega]
    exact char_ofNat_toNat (by omega)
  · rw [if_neg h1]

theorem pyLowerChar_pyLowerChar (c : Char) :
    pyLowerChar (pyLowerChar c) = pyLowerChar c := by
  by_cases h1 : 65 ≤ c.toNat ∧ c.toNat ≤ 90
  · have hin : pyLowerChar c = Char.ofNat (c.toNat + 32) := by
      unfold pyLowerChar
      rw [if_pos h1]
    have ht : (Char.ofNat (c.toNat + 32)).toNat = c.toNat + 32 :=
      char_toNat_ofNat (by omega)
    rw [hin]
    unfold pyLowerChar
    rw [if_neg (by rw [ht]; omega)]
  · have hin : pyLowerChar c = c := by
      unfold pyLowerChar
      rw [if_neg h1]
    rw [hin, hin]

theorem pyLower_pyCapitalize (s : List Char) :
    pyLower (pyCapitalize s) = pyLower s := by
  cases s with
  | nil => rfl
  | cons c cs =>
    simp only [pyCapitalize, pyLower, List.map_cons, List.map_map]
    rw [pyLowerChar_pyUpperChar]
    congr 1
    apply List.map_congr_left
    intro a _
    exact pyLowerChar_pyLowerChar a

theorem isPySpace_pyLowerChar (c : Char) :
    isPySpace (pyLowerChar c) = isPySpace c := by
  by_cases h1 : 65 ≤ c.toNat ∧ c.toNat ≤ 90
  · have hin : pyLowerChar c = Char.ofNat (c.toNat + 32) := by
      unfold pyLowerChar
      rw [if_pos h1]
    have ht : (Char.ofNat (c.toNat + 32)).toNat = c.toNat + 32 :=
      char_toNat_ofNat (by omega)
    rw [hin]
    have hL : isPySpace (Char.ofNat (c.toNat + 32)) = false := by
      unfold isPySpace
      rw [ht]
      simp only [Bool.or_eq_false_iff, decide_eq_false_iff_not]
      omega
    have hR : isPySpace c = false := by
      unfold isPySpace
      simp only [Bool.or_eq_false_iff, decide_eq_false_iff_not]
      omega
    rw [hL, hR]
  · have hin : pyLowerChar c = c := by
      unfold pyLowerChar
      rw [if_neg h1]
    rw [hin]

theorem dropWhile_pyLower (l : List Char) :
    (pyLower l).dropWhile isPySpace = pyLower (l.dropWhile isPySpace) := by
  induction l with
  | nil => rfl
  | cons c cs ih =>
    simp only [pyLower, List.map_cons, List.dropWhile_cons,
      isPySpace_pyLowerChar]
    by_cases h : isPySpace c = true
    · rw [if_pos h, if_pos h]
      exact ih
    · rw [if_neg h, if_neg h]
      rfl

theorem pyStrip_pyLower (l : List Char) :
    pyStrip (pyLower l) = pyLower (pyStrip l) := by
  unfold pyStrip
  rw [dropWhile_pyLower, show (pyLower (l.dropWhile isPySpace)).reverse =
    pyLower (l.dropWhile isPySpace).reverse from (List.map_reverse _ _).symm,
    dropWhile_pyLower, show (pyLower ((l.dropWhile isPySpace).reverse.dropWhile
      isPySpace)).reverse = pyLower ((l.dropWhile
      isPySpace).reverse.dropWhile isPySpace).reverse from
      (List.map_reverse _ _).symm]

theorem dropWhile_length_le (p : Char → Bool) (l : List Char) :
    (l.dropWhile p).length ≤ l.length := by
  induction l with
  | nil => exact Nat.le_refl _
  | cons x xs ih =>
    rw [List.dropWhile_cons]
    by_cases hx : p x = true
    · rw [if_pos hx]
      exact Nat.le_trans ih (by simp)
    · rw [if_neg hx]

theorem dropWhile_head_not {p : Char → Bool} :
    ∀ {l : List Char} {c : Char} {cs : List Char},
      l.dropWhile p = c :: cs → p c = false := by
  intro l
  induction l with
  | nil => intro c cs h; cases h
  | cons x xs ih =>
    intro c cs h
    rw [List.dropWhile_cons] at h
    by_cases hx : p x = true
    · rw [if_pos hx] at h
      exact ih h
    · rw [if_neg hx] at h
      cases h
      exact Bool.not_eq_true _ |>.mp hx

theorem dropWhile_idem (p : Char → Bool) (l : List Char) :
    (l.dropWhile p).dropWhile p = l.dropWhile p := by
  cases hdw : l.dropWhile p with
  | nil => rfl
  | cons c cs =>
    rw [List.dropWhile_cons,
      if_neg (by rw [dropWhile_head_not hdw]; exact Bool.false_ne_true)]

theorem dropWhile_pyStrip (s : List Char) :
    (pyStrip s).dropWhile isPySpace = pyStrip s := by
  unfold pyStrip
  cases hmc : s.dropWhile isPySpace with
  | nil => simp [hmc]
  | cons c m2 =>
    have hc : isPySpace c = false := dropWhile_head_not hmc
    cases hw : (c :: m2).reverse.dropWhile isPySpace with
    | nil => simp [hw]
    | cons y ys =>
      have hq : (c :: m2).reverse.takeWhile isPySpace ++ (y :: ys) =
          (c :: m2).reverse := by
        rw [← hw]
        exact List.takeWhile_append_dropWhile _ _
      have hrev : (y :: ys).reverse ++
          ((c :: m2).reverse.takeWhile isPySpace).reverse = c :: m2 := by
        rw [← List.reverse_append, hq, List.reverse_reverse]
      cases hyr : (y :: ys).reverse with
      | nil => exact absurd (congrArg List.length hyr) (by simp)
      | cons z zs =>
        rw [hyr] at hrev
        have hz : z = c := by
          have h2 := congrArg List.head? hrev
          simpa using h2
        rw [List.dropWhile_cons, if_neg]
        rw [hz, hc]
        exact Bool.false_ne_true

theorem dropWhile_reverse_pyStrip (s : List Char) :
    (pyStrip s).reverse.dropWhile isPySpace = (pyStrip s).reverse := by
  unfold pyStrip
  rw [List.reverse_reverse]
  exact dropWhile_idem _ _

theorem pyStrip_decomp (h : List Char) : ∃ x y, h = x ++ pyStrip h ++ y := by
  refine ⟨h.takeWhile isPySpace,
    ((h.dropWhile isPySpace).reverse.takeWhile isPySpace).reverse, ?_⟩
  conv_lhs => rw [← List.takeWhile_append_dropWhile isPySpace h]
  rw [List.append_assoc]
  congr 1
  have hm : h.dropWhile isPySpace =
      ((h.dropWhile isPySpace).reverse.takeWhile isPySpace ++
        (h.dropWhile isPySpace).reverse.dropWhile isPySpace).reverse := by
    rw [List.takeWhile_append_dropWhile, List.reverse_reverse]
  conv_lhs => rw [hm]
  rw [List.reverse_append]
  rfl

theorem dropWhile_keep (a : List Char) (c : Char) (t2 b : List Char)
    (hc : isPySpace c = false) :
    ∃ a2, (a ++ (c :: t2) ++ b).dropWhile isPySpace =
      a2 ++ (c :: t2) ++ b := by
  induction a with
  | nil =>
    refine ⟨[], ?_⟩
    simp only [List.nil_append, List.cons_append]
    rw [List.dropWhile_cons, if_neg (by rw [hc]; exact Bool.false_ne_true)]
  | cons x xs ih =>
    obtain ⟨a2, ha2⟩ := ih
    by_cases hx : isPySpace x = true
    · refine ⟨a2, ?_⟩
      rw [show (x :: xs) ++ (c :: t2) ++ b = x :: (xs ++ (c :: t2) ++ b)
        from by simp]
      rw [List.dropWhile_cons, if_pos hx]
      exact ha2
    · refine ⟨x :: xs, ?_⟩
      rw [show (x :: xs) ++ (c :: t2) ++ b = x :: (xs ++ (c :: t2) ++ b)
        from by simp]
      rw [List.dropWhile_cons, if_neg hx]

theorem occursIn_pyStrip_iff {t h : List Char}
    (h1 : t.dropWhile isPySpace = t)
    (h2 : t.reverse.dropWhile isPySpace = t.reverse) :
    occursIn t h ↔ occursIn t (pyStrip h) := by
  cases t with
  | nil =>
    constructor
    · intro _
      exact ⟨[], pyStrip h, by simp⟩
    · intro _
      exact ⟨[], h, by simp⟩
  | cons c t2 =>
    have hc : isPySpace c = false := dropWhile_head_not h1
    constructor
    · rintro ⟨a, b, hab⟩
      obtain ⟨a2, ha2⟩ := dropWhile_keep a c t2 b hc
      cases hrt : (c :: t2).reverse with
      | nil => exact absurd (congrArg List.length hrt) (by simp)
      | cons c' t2' =>
        have hc' : isPySpace c' = false := dropWhile_head_not (hrt ▸ h2)
        obtain ⟨b2, hb2⟩ :=
          dropWhile_keep b.reverse c' t2' a2.reverse hc'
        refine ⟨a2, b2.reverse, ?_⟩
        unfold pyStrip
        rw [hab, ha2]
        have hstep : (a2 ++ (c :: t2) ++ b).reverse =
            b.reverse ++ (c' :: t2') ++ a2.reverse := by
          rw [← hrt]
          simp [List.reverse_append, List.append_assoc]
        rw [hstep, hb2]
        have hrt2 : (c' :: t2') = (c :: t2).reverse := hrt.symm
        rw [hrt2]
        simp [List.reverse_append, List.append_assoc]
    · rintro ⟨a, b, hab⟩
      obtain ⟨x, y, hxy⟩ := pyStrip_decomp h
      exact ⟨x ++ a, b ++ y, by rw [hxy, hab]; simp [List.append_assoc]⟩

theorem leadsWith_iff {p s : List Char} :
    leadsWith p s = true ↔ ∃ r, s = p ++ r := by
  induction p generalizing s with
  | nil => simp [leadsWith]
  | cons a ps ih =>
    cases s with
    | nil => simp [leadsWith]
    | cons c cs =>
      simp only [leadsWith, Bool.and_eq_true, beq_iff_eq, ih]
      constructor
      · rintro ⟨rfl, r, rfl⟩
        exact ⟨r, rfl⟩
      · rintro ⟨r, hr⟩
        simp only [List.cons_append, List.cons.injEq] at hr
        exact ⟨hr.1.symm, r, hr.2⟩

theorem subStr_iff {n h : List Char} : subStr n h = true ↔ occursIn n h := by
  induction h with
  | nil =>
    constructor
    · intro he
      have hn : n = [] := by
        simpa [subStr, List.isEmpty_iff] using he
      exact ⟨[], [], by simp [hn]⟩
    · rintro ⟨a, b, hab⟩
      have := hab.symm
      simp only [List.append_eq_nil] at this
      simp [subStr, List.isEmpty_iff, this.1.2]
  | cons c cs ih =>
    simp only [subStr, Bool.or_eq_true, ih, leadsWith_iff]
    constructor
    · rintro (⟨r, hr⟩ | ⟨a, b, hab⟩)
      · exact ⟨[], r, by simpa using hr⟩
      · exact ⟨c :: a, b, by simp [hab]⟩
    · rintro ⟨a, b, hab⟩
      cases a with
      | nil => exact Or.inl ⟨b, by simpa using hab⟩
      | cons x xs =>
        right
        simp only [List.cons_append, List.cons.injEq, List.append_assoc]
          at hab
        refine ⟨xs, b, ?_⟩
        rw [hab.2]
        simp [List.append_assoc]

/-!
C5.  The interest-matching equivalence: the source's
`is_match_found_in_alert_info` is true exactly when some configured
comma-separated term (stripped of surrounding whitespace) occurs
case-insensitively within the record's location, and it is vacuously true
for the empty term string (whose split yields one empty term).
-/

/-- C5: interest matching is case-insensitive substring matching over the
record's location: vacuously true when the configured terms string is
empty, and in general true iff some configured (comma-separated, stripped)
term occurs case-insensitively within the location
(`matches_interest_spec`, written from the spec's words). -/
theorem c5_interest_matching :
    (∀ info, is_match_found_in_alert_info (chars "") info = true) ∧
    (∀ ts info, is_match_found_in_alert_info ts info = true ↔
      matches_interest_spec ts info) := by
  have hmain : ∀ ts info, is_match_found_in_alert_info ts info = true ↔
      matches_interest_spec ts info := by
    intro ts info
    unfold is_match_found_in_alert_info matches_interest_spec
      split_and_capitalize_text
    rw [List.any_eq_true]
    constructor
    · rintro ⟨x, hx, hsub⟩
      obtain ⟨t, ht, rfl⟩ := List.mem_map.mp hx
      refine ⟨t, ht, ?_⟩
      rw [pyLower_pyCapitalize] at hsub
      have hocc := subStr_iff.mp hsub
      rw [← pyStrip_pyLower info] at hocc
      have h1 : (pyLower (pyStrip t)).dropWhile isPySpace =
          pyLower (pyStrip t) := by
        rw [← pyStrip_pyLower]
        exact dropWhile_pyStrip _
      have h2 : (pyLower (pyStrip t)).reverse.dropWhile isPySpace =
          (pyLower (pyStrip t)).reverse := by
        rw [← pyStrip_pyLower]
        exact dropWhile_reverse_pyStrip _
      exact (occursIn_pyStrip_iff h1 h2).mpr hocc
    · rintro ⟨t, ht, hocc⟩
      refine ⟨pyCapitalize (pyStrip t), List.mem_map_of_mem _ ht, ?_⟩
      rw [pyLower_pyCapitalize]
      apply subStr_iff.mpr
      rw [← pyStrip_pyLower info]
      have h1 : (pyLower (pyStrip t)).dropWhile isPySpace =
          pyLower (pyStrip t) := by
        rw [← pyStrip_pyLower]
        exact dropWhile_pyStrip _
      have h2 : (pyLower (pyStrip t)).reverse.dropWhile isPySpace =
          (pyLower (pyStrip t)).reverse := by
        rw [← pyStrip_pyLower]
        exact dropWhile_reverse_pyStrip _
      exact (occursIn_pyStrip_iff h1 h2).mp hocc
  refine ⟨?_, hmain⟩
  intro info
  exact (hmain (chars "") info).mpr ⟨[], by decide, [], pyLower info, rfl⟩

/-- Witness for C5 at concrete inputs: the empty terms string matches, and
the term string `"makati"` matches the location `"MAKATI CITY"`. -/
theorem c5_witness :
    is_match_found_in_alert_info (chars "") (chars "QUEZON CITY") = true ∧
    (is_match_found_in_alert_info (chars "makati") (chars "MAKATI CITY") =
        true ↔ matches_interest_spec (chars "makati") (chars "MAKATI CITY")) :=
  ⟨c5_interest_matching.1 (chars "QUEZON CITY"),
    c5_interest_matching.2 (chars "makati") (chars "MAKATI CITY")⟩

/-!
C7.  The first-line parse (lines 313-319) defaults the category to
`"UNKNOWN"` whenever the colon-split does NOT have exactly two parts — so a
line with two or more colons, although "a colon is present", is treated
like the no-colon case; and the location/category extraction of the
exactly-one-colon case indexes `split("!")[1]`, which raises when no `"!"`
is present.
-/

theorem pyStrip_pyStrip (s : List Char) : pyStrip (pyStrip s) = pyStrip s := by
  conv_lhs => rw [pyStrip]
  rw [dropWhile_pyStrip, dropWhile_reverse_pyStrip, List.reverse_reverse]

/-- C7 counterexample: the first line
`"FIRE ALERT! X : 1ST ALARM : EXTRA"` contains a colon (and a `"!"`), yet
the parsed category is the `"UNKNOWN"` sentinel — not the text after a
colon — and the parsed location `" X"` is the text before the FIRST colon
(with the decorative prefix removed), not the text after the `"!"` and
before the colon (which would be `"X"` after stripping). -/
theorem c7_counterexample :
    subStr (chars ":") (chars "FIRE ALERT! X : 1ST ALARM : EXTRA") = true ∧
    parseBlock twoColonBlock =
      .ok ⟨chars " X", chars "UNKNOWN", chars "T"⟩ ∧
    chars "UNKNOWN" ≠ chars "1ST ALARM" ∧
    chars "UNKNOWN" ≠ chars "1ST ALARM : EXTRA" ∧
    chars " X" ≠ chars "X" := by
  exact ⟨by decide, rfl, by decide, by decide, by decide⟩

/-- C7 amended: when the first line's colon-split has exactly two parts
(exactly one colon), the text after the first `"!"` of the part before the
colon becomes the location and the part after the colon the category —
raising an uncaught IndexError if that part contains no `"!"`; in every
other case (no colon, or two or more colons) the whole cleaned line up to
the first colon becomes the location and the category is the `"UNKNOWN"`
sentinel.  (Normalization: strip, removal of the `"FIRE ALERT!"` fragment,
uppercase.) -/
theorem c7_colon_cases (p0 p1 : List Char) (rest : List (List Char))
    (htime : 2 ≤ (splitSeq (chars "As of ") (clean_text p1)).length) :
    ((firstLineParts p0).length ≠ 2 →
      ∃ r, parseBlock (p0 :: p1 :: rest) = .ok r ∧
        r.alert_type = chars "UNKNOWN" ∧
        r.alert_info = pyUpper (pyReplace (chars "FIRE ALERT!") []
          (pyStrip (firstLineParts p0).headI))) ∧
    (∀ a b, firstLineParts p0 = [a, b] →
      2 ≤ (splitSeq (chars "!") a).length →
      ∃ r ai, (splitSeq (chars "!") a).get? 1 = some ai ∧
        parseBlock (p0 :: p1 :: rest) = .ok r ∧
        r.alert_type = pyUpper (pyStrip b) ∧
        r.alert_info =
          pyUpper (pyReplace (chars "FIRE ALERT!") [] (pyStrip ai))) ∧
    (∀ a b, firstLineParts p0 = [a, b] →
      (splitSeq (chars "!") a).length < 2 →
      parseBlock (p0 :: p1 :: rest) = .error .indexError) := by
  obtain ⟨tv, htv⟩ : ∃ v,
      (splitSeq (chars "As of ") (clean_text p1)).get? 1 = some v :=
    ⟨_, List.get?_eq_get (by omega)⟩
  have htvIdx : getIdx (splitSeq (chars "As of ") (clean_text p1)) 1 =
      .ok tv := getIdx_some htv
  have hp1 : getIdx (p0 :: p1 :: rest) 1 = .ok p1 := rfl
  refine ⟨?_, ?_, ?_⟩
  · intro hlen
    obtain ⟨a, l, hparts⟩ := List.exists_cons_of_ne_nil
      (splitSeq_ne_nil (chars ":") (pyReplace (chars "->") [] (clean_text p0)))
    simp only [firstLineParts] at hlen ⊢
    rw [hparts] at hlen ⊢
    simp only [parseBlock, getIdx_zero, ok_bind, hparts]
    rw [if_neg hlen]
    simp only [ok_bind, pure_ok, hp1, htvIdx]
    refine ⟨_, rfl, rfl, ?_⟩
    rw [pyStrip_pyStrip]
    rfl
  · intro a b heq hbang
    obtain ⟨bv, hbv⟩ : ∃ v, (splitSeq (chars "!") a).get? 1 = some v :=
      ⟨_, List.get?_eq_get (by omega)⟩
    have hbvIdx : getIdx (splitSeq (chars "!") a) 1 = .ok bv :=
      getIdx_some hbv
    simp only [firstLineParts] at heq
    have h2nd : getIdx [a, b] 1 = .ok b := rfl
    simp only [parseBlock, getIdx_zero, ok_bind, heq]
    rw [if_pos (by rfl)]
    simp only [hbvIdx, h2nd, ok_bind, pure_ok, hp1, htvIdx]
    exact ⟨_, bv, hbv, rfl, rfl, rfl⟩
  · intro a b heq hbang
    have hbvIdx : getIdx (splitSeq (chars "!") a) 1 = .error .indexError :=
      getIdx_eq_error (by omega)
    simp only [firstLineParts] at heq
    simp only [parseBlock, getIdx_zero, ok_bind, heq]
    rw [if_pos (by rfl)]
    simp only [hbvIdx]
    rfl

/-- Witness for C7 at the two-colon first line: parsing defaults the
category to `"UNKNOWN"` although a colon is present. -/
theorem c7_witness :
    ∃ r, parseBlock
        [chars "FIRE ALERT! X : 1ST ALARM : EXTRA", chars "As of T"] =
        .ok r ∧
      r.alert_type = chars "UNKNOWN" ∧
      r.alert_info = pyUpper (pyReplace (chars "FIRE ALERT!") []
        (pyStrip (firstLineParts
          (chars "FIRE ALERT! X : 1ST ALARM : EXTRA")).headI)) :=
  (c7_colon_cases (chars "FIRE ALERT! X : 1ST ALARM : EXTRA") (chars "As of T")
    [] (by decide)).1 (by decide)
